import Mathlib

/-!
Verification of the SCC export-cleaning pipeline, the client store and the
webhook receiver of project-prism.

Python strings are modelled as lists of Unicode code points (`PyStr`); each
Python function is translated into an executable Lean definition over that
representation, with I/O boundaries (uploaded file, SQLite table, Flask
request) made explicit as structures.
-/

/-- A Python string, modelled as its list of Unicode code points. -/
abbrev PyStr := List Nat

/-- The code points of a string literal. -/
def codes (s : String) : PyStr := s.data.map Char.toNat

/-- Python `str.lower()` on one code point (the data handled by the app is
ASCII: `A`–`Z` map to `a`–`z`, everything else is unchanged). -/
def lowerCode (n : Nat) : Nat := if 65 ≤ n ∧ n ≤ 90 then n + 32 else n

/-- Python `str.lower()`. -/
def pyLower (s : PyStr) : PyStr := s.map lowerCode

/-- The whitespace code points Python `str.strip()` removes:
space, tab, newline, carriage return, vertical tab, form feed. -/
def isWs (n : Nat) : Bool := n = 32 || n = 9 || n = 10 || n = 13 || n = 11 || n = 12

/-- Drop the longest suffix whose code points all satisfy `p`. -/
def dropTrailing (p : Nat → Bool) : PyStr → PyStr
  | [] => []
  | c :: t =>
    match dropTrailing p t with
    | [] => if p c then [] else [c]
    | d :: t' => c :: d :: t'

/-- Python `str.strip()`: remove leading and trailing whitespace. -/
def pyStrip (s : PyStr) : PyStr := dropTrailing isWs (s.dropWhile isWs)

/-- `col.strip().lower()` — the canonical form `process_scc_export` gives a
column label before matching it against the reference list. -/
def normLabel (s : PyStr) : PyStr := pyLower (pyStrip s)

/-- Whether `pat` is a leading segment of `hay`. -/
def startsWith : PyStr → PyStr → Bool
  | _, [] => true
  | [], _ :: _ => false
  | c :: t, d :: u => c = d && startsWith t u

/-- Python `pat in hay`: `pat` occurs contiguously in `hay`. -/
def containsSub : PyStr → PyStr → Bool
  | [], pat => pat.isEmpty
  | c :: t, pat => startsWith (c :: t) pat || containsSub t pat

/-! ## `data_processor.py`: the reference column list and the matcher -/

/-- `REFERENCE_COLUMNS` of `data_processor.py`, verbatim. -/
def REFERENCE_COLUMNS : List PyStr := [
  codes "resource.gcp_metadata.project_display_name",
  codes "resource.display_name",
  codes "resource.type",
  codes "finding.state",
  codes "finding.category",
  codes "finding.event_time",
  codes "finding.create_time",
  codes "finding.property_data_types",
  codes "finding.severity",
  codes "finding.mute",
  codes "finding.mute_info.static_mute.state",
  codes "finding.mute_info.static_mute.apply_time",
  codes "finding.finding_class",
  codes "finding.vulnerability.cve.id",
  codes "finding.vulnerability.cve.references",
  codes "finding.vulnerability.cve.cvssv3",
  codes "finding.vulnerability.cve.upstream_fix_available",
  codes "finding.vulnerability.cve.zero_day",
  codes "finding.vulnerability.cve.impact",
  codes "finding.vulnerability.cve.exploitation_activity",
  codes "finding.vulnerability.cve.exploit_release_date",
  codes "finding.vulnerability.cve.first_exploitation_date",
  codes "finding.vulnerability.offending_package.package_name",
  codes "finding.vulnerability.offending_package.cpe_uri",
  codes "finding.vulnerability.offending_package.package_type",
  codes "finding.vulnerability.offending_package.package_version",
  codes "finding.vulnerability.fixed_package.package_name",
  codes "finding.vulnerability.fixed_package.cpe_uri",
  codes "finding.vulnerability.fixed_package.package_type",
  codes "finding.vulnerability.fixed_package.package_version",
  codes "finding.contacts",
  codes "finding.compliances",
  codes "finding.original_provider_id",
  codes "finding.access.principal_subject",
  codes "finding.source_properties",
  codes "finding.parent_display_name",
  codes "finding.description",
  codes "finding.iam_bindings",
  codes "finding.next_steps",
  codes "finding.kubernetes.objects",
  codes "finding.attack_exposure.score",
  codes "finding.attack_exposure.latest_calculation_time",
  codes "finding.attack_exposure.attack_exposure_result",
  codes "finding.attack_exposure.state",
  codes "finding.attack_exposure.exposed_low_value_resources_count",
  codes "finding.toxic_combination.attack_exposure_score",
  codes "finding.toxic_combination.related_findings",
  codes "finding.group_memberships",
  codes "resource.name",
  codes "resource.cloud_provider",
  codes "resource.service",
  codes "resource.location",
  codes "resource.gcp_metadata.project",
  codes "resource.gcp_metadata.parent",
  codes "resource.gcp_metadata.parent_display_name",
  codes "resource.gcp_metadata.folders",
  codes "resource.gcp_metadata.organization",
  codes "resource.resource_path.nodes",
  codes "resource.resource_path_string",
  codes "finding.cloud_armor.security_policy.name"]

/-- `{col.strip().lower(): col for col in existing_cols_orig}` as an
association list in comprehension order (a later duplicate key overwrites an
earlier one, so lookups must take the last binding). -/
def normalizedToOrig (cols : List PyStr) : List (PyStr × PyStr) :=
  cols.map (fun c => (normLabel c, c))

/-- Python dict lookup on the comprehension above: the last binding of a key
wins. -/
def dictLookup (m : List (PyStr × PyStr)) (k : PyStr) : Option PyStr :=
  (m.reverse.find? (fun p => p.1 = k)).map Prod.snd

/-- The `matched_columns` list built by `process_scc_export`: for each
reference column in order, the original input label whose stripped-lowercased
form equals the (stripped-lowercased) reference name, if any. -/
def matchedColumns (cols : List PyStr) : List PyStr :=
  REFERENCE_COLUMNS.filterMap (fun r => dictLookup (normalizedToOrig cols) (normLabel r))

/-- The `missing_columns` list: reference columns with no match in the input. -/
def missingColumns (cols : List PyStr) : List PyStr :=
  REFERENCE_COLUMNS.filter (fun r => (dictLookup (normalizedToOrig cols) (normLabel r)).isNone)

/-- The fallback test of `process_scc_export`:
`all(ind in col.lower() for ind in ['project', 'display', 'name'])`. -/
def hasProjectNameIndicators (c : PyStr) : Bool :=
  containsSub (pyLower c) (codes "project") && containsSub (pyLower c) (codes "display")
    && containsSub (pyLower c) (codes "name")

/-- The `ValueError` message raised when nothing matches. -/
def noMatchErrorMsg : PyStr :=
  codes "No matching columns found. Please check if this is a valid SCC export."

/-- Column selection of `process_scc_export`: the matched columns, or — when
zero reference columns matched — the first input column naming a project
display name, or a `ValueError`. -/
def selectColumns (cols : List PyStr) : Except PyStr (List PyStr) :=
  let matched := matchedColumns cols
  if matched.isEmpty then
    match cols.find? hasProjectNameIndicators with
    | some c => .ok [c]
    | none => .error noMatchErrorMsg
  else .ok matched

/-- The column renamed for readability. -/
def projectDisplayNameCol : PyStr := codes "resource.gcp_metadata.project_display_name"

/-- `df_clean.rename(columns={"resource.gcp_metadata.project_display_name":
"Project Name"})`, applied only when `matched_columns` is nonempty and its
first entry is exactly that string; pandas renames every column bearing the
old label. -/
def renameColumns (m : List PyStr) : List PyStr :=
  if m.head? = some projectDisplayNameCol then
    m.map (fun c => if c = projectDisplayNameCol then codes "Project Name" else c)
  else m

/-- An in-memory table: the parsed CSV's column labels and rows, a cell being
`none` when the CSV had no value there (pandas `NaN`). -/
structure Table where
  columns : List PyStr
  rows : List (List (Option PyStr))
deriving DecidableEq

/-- The stats dict returned by `process_scc_export`. -/
structure SccStats where
  original_rows : Nat
  original_columns : Nat
  cleaned_columns : Nat
  missing_columns : Nat
  matched_column_names : List PyStr
deriving DecidableEq

/-- `process_scc_export`, modelled on the parsed table: the cleaned sheet's
column labels together with the stats dict, or the `ValueError` text. -/
def process_scc_export (t : Table) : Except PyStr (List PyStr × SccStats) :=
  match selectColumns t.columns with
  | .error e => .error e
  | .ok matched =>
    .ok (renameColumns matched,
      { original_rows := t.rows.length
        original_columns := t.columns.length
        cleaned_columns := matched.length
        missing_columns := (missingColumns t.columns).length
        matched_column_names := matched.take 5 })

/-- The cleaned sheet's column labels alone. -/
def processColumns (t : Table) : Except PyStr (List PyStr) :=
  (process_scc_export t).map Prod.fst

instance exceptDecEq {ε α : Type} [DecidableEq ε] [DecidableEq α] :
    DecidableEq (Except ε α) := fun a b =>
  match a, b with
  | .error e, .error f =>
    if h : e = f then .isTrue (by rw [h]) else .isFalse (by intro hc; cases hc; exact h rfl)
  | .ok x, .ok y =>
    if h : x = y then .isTrue (by rw [h]) else .isFalse (by intro hc; cases hc; exact h rfl)
  | .error _, .ok _ => .isFalse (by intro hc; cases hc)
  | .ok _, .error _ => .isFalse (by intro hc; cases hc)

/-! ## `data_processor.py`: `validate_file` -/

/-- What `pd.read_csv(uploaded_file, nrows=5)` yields: the column labels and
the number of sampled rows (at most 5). -/
structure ParsedCsv where
  columns : List PyStr
  sampleRows : Nat
deriving DecidableEq

/-- An uploaded file as `validate_file` observes it: its byte size, and the
outcome of parsing it as a CSV (`error` carries the exception text). -/
structure UploadedFile where
  size : Nat
  parsed : Except PyStr ParsedCsv
deriving DecidableEq

/-- The SCC indicator test:
`any(indicator in col for indicator in ['finding.', 'resource.'])`. -/
def hasSccIndicator (c : PyStr) : Bool :=
  containsSub c (codes "finding.") || containsSub c (codes "resource.")

/-- `validate_file`: the `(is_valid, message)` pair. `df.empty` holds when
the sampled frame has no rows or no columns. -/
def validate_file (f : UploadedFile) : Bool × PyStr :=
  if f.size > 50 * 1024 * 1024 then (false, codes "File too large. Maximum size is 50MB.")
  else if f.size = 0 then (false, codes "File is empty.")
  else
    match f.parsed with
    | .error e => (false, codes "Could not read file: " ++ e)
    | .ok df =>
      if df.sampleRows = 0 ∨ df.columns = [] then (false, codes "CSV file has no data.")
      else if df.columns.any hasSccIndicator then (true, codes "Valid SCC export file.")
      else
        (false,
         codes "This doesn't look like an SCC export. Expected columns like 'finding.*' or 'resource.*'.")

/-! ## `data_processor.py`: `get_project_summary` -/

/-- Strict lexicographic-or-equal order on code point lists (how pandas sorts
the group keys). -/
def lexLe : PyStr → PyStr → Bool
  | [], _ => true
  | _ :: _, [] => false
  | a :: s, b :: t => if a < b then true else if b < a then false else lexLe s t

/-- The project column probe of `get_project_summary`: the literal name when
present, else the first column whose lowercased label contains both
`project` and `display`. -/
def findProjectCol (cols : List PyStr) : Option PyStr :=
  if projectDisplayNameCol ∈ cols then some projectDisplayNameCol
  else
    match cols.find? (fun c =>
        containsSub (pyLower c) (codes "project") && containsSub (pyLower c) (codes "display")) with
    | some c => some c
    | none => none

/-- The values of column `c` down the table, `none` where the cell is NaN. -/
def columnValues (t : Table) (c : PyStr) : List (Option PyStr) :=
  t.rows.map (fun r => r.getD (t.columns.indexOf c) none)

/-- `df.groupby(project_col).size()`: one `(key, count)` pair per distinct
non-NaN value, keys sorted ascending (pandas drops NaN group keys). -/
def groupCounts (vals : List (Option PyStr)) : List (PyStr × Nat) :=
  (List.insertionSort (fun a b => lexLe a b = true) (vals.filterMap id).dedup).map
    (fun v => (v, (vals.filterMap id).count v))

/-- `get_project_summary`: the summary rows `(Project Name, Finding Count)`,
sorted by count descending; empty when no project column is found. -/
def get_project_summary (t : Table) : List (PyStr × Nat) :=
  match findProjectCol t.columns with
  | none => []
  | some c =>
    List.insertionSort (fun a b : PyStr × Nat => b.2 ≤ a.2) (groupCounts (columnValues t c))

/-! ## `db.py`: `add_client` -/

/-- A row of the `clients` table. -/
structure ClientRow where
  id : Nat
  client_name : PyStr
  gcp_project_id : PyStr
deriving DecidableEq

/-- The `clients` table with its autoincrement counter; `gcp_project_id` is
UNIQUE. -/
structure ClientsDb where
  rows : List ClientRow
  nextId : Nat
deriving DecidableEq

/-- `add_client`: insert `(name.strip(), project_id.strip())`; a duplicate
`gcp_project_id` raises `sqlite3.IntegrityError`, turned into
`(False, message)` with the table untouched. -/
def add_client (db : ClientsDb) (name project_id : PyStr) : ClientsDb × Bool × PyStr :=
  let pid := pyStrip project_id
  if db.rows.any (fun r => r.gcp_project_id = pid) then
    (db, false, codes "Project ID '" ++ project_id ++ codes "' already exists.")
  else
    ({ rows := db.rows ++ [⟨db.nextId, pyStrip name, pid⟩], nextId := db.nextId + 1 },
     true, codes "Client '" ++ name ++ codes "' added!")

/-! ## `webhook_api.py`: `receive_webhook` -/

/-- A POST request as the handler observes it: whether the body is JSON, and
the optional string fields of the payload (`none` = key absent). -/
structure WebhookRequest where
  isJson : Bool
  secret : Option PyStr
  source : Option PyStr
  severity : Option PyStr
  msgType : Option PyStr
  title : Option PyStr
  content : Option PyStr
  dataField : Option PyStr
deriving DecidableEq

/-- A row of `webhook_messages`. -/
structure StoredMessage where
  id : Nat
  source : PyStr
  severity : PyStr
  message_type : PyStr
  title : PyStr
  content : PyStr
  payload : PyStr
deriving DecidableEq

/-- The `webhook_messages` table with its autoincrement counter. -/
structure WebhookDb where
  messages : List StoredMessage
  nextId : Nat
deriving DecidableEq

/-- The JSON response: HTTP status and the body fields the handler sets. -/
structure WebhookResponse where
  httpStatus : Nat
  body_status : Option PyStr
  body_message : Option PyStr
  body_id : Option Nat
  body_error : Option PyStr
deriving DecidableEq

/-- The accepted severities, in source order. -/
def severityLevels : List PyStr :=
  [codes "info", codes "warning", codes "error", codes "critical"]

/-- The accepted message types, in source order. -/
def messageTypes : List PyStr :=
  [codes "text", codes "table", codes "list", codes "code", codes "json"]

/-- `receive_webhook`, parametrised by the configured `WEBHOOK_SECRET`:
non-JSON body → 400; wrong secret → 401 with nothing stored; otherwise
normalise severity and type, insert one row and answer 200 with the new id. -/
def receive_webhook (secretCfg : PyStr) (db : WebhookDb) (req : WebhookRequest) :
    WebhookResponse × WebhookDb :=
  if req.isJson = false then
    (⟨400, none, none, none, some (codes "Content-Type must be application/json")⟩, db)
  else if req.secret ≠ some secretCfg then
    (⟨401, none, none, none, some (codes "Invalid secret")⟩, db)
  else
    let severity0 := pyLower (req.severity.getD (codes "info"))
    let severity := if severity0 ∈ severityLevels then severity0 else codes "info"
    let mtype0 := pyLower (req.msgType.getD (codes "text"))
    let mtype := if mtype0 ∈ messageTypes then mtype0 else codes "text"
    let row : StoredMessage :=
      { id := db.nextId
        source := req.source.getD (codes "Unknown")
        severity := severity
        message_type := mtype
        title := req.title.getD []
        content := req.content.getD []
        payload := req.dataField.getD (codes "{}") }
    (⟨200, some (codes "success"), some (codes "Webhook received"), some db.nextId, none⟩,
     ⟨db.messages ++ [row], db.nextId + 1⟩)

/-! ## The Column Normalizer of spec §4.1 -/

/-- ASCII letter or digit. -/
def isAlnumCode (n : Nat) : Bool :=
  (97 ≤ n && n ≤ 122) || (65 ≤ n && n ≤ 90) || (48 ≤ n && n ≤ 57)

/-- Collapse each run of consecutive underscores (code 95) to one. -/
def collapseUnderscores : PyStr → PyStr
  | [] => []
  | [c] => [c]
  | c :: d :: t =>
    if c = 95 ∧ d = 95 then collapseUnderscores (d :: t)
    else c :: collapseUnderscores (d :: t)

/-- Underscore test. -/
def isUnderscore (n : Nat) : Bool := n = 95

/-- Strip leading and trailing underscores. -/
def stripUnderscores (s : PyStr) : PyStr :=
  dropTrailing isUnderscore (s.dropWhile isUnderscore)

/-- Modelled from the spec: the Column Normalizer of §4.1 ("trim whitespace,
replace any non-alphanumeric run with a single underscore, lowercase,
collapse repeated underscores, strip leading/trailing underscores"); the
categorizer/rules code that applies it is not among the repository's files,
only `process_scc_export`'s simpler `strip().lower()` is. -/
def normalizeColumn (s : PyStr) : PyStr :=
  stripUnderscores (collapseUnderscores
    ((pyStrip s).map (fun n => if isAlnumCode n then lowerCode n else 95)))

/-- A code point the Column Normalizer can emit: an underscore, a lowercase
letter or a digit. -/
def goodCode (n : Nat) : Bool := n = 95 || (97 ≤ n && n ≤ 122) || (48 ≤ n && n ≤ 57)

/-- Two adjacent code points are not both underscores. -/
def underscoreApart (a b : Nat) : Prop := ¬(a = 95 ∧ b = 95)

/-! ## Lemmas about the matcher -/

theorem dictLookup_sound {cols : List PyStr} {k c : PyStr}
    (h : dictLookup (normalizedToOrig cols) k = some c) :
    c ∈ cols ∧ normLabel c = k := by
  unfold dictLookup at h
  obtain ⟨p, hfind, hsnd⟩ := Option.map_eq_some'.mp h
  have hp := @List.find?_some (PyStr × PyStr) (fun q => decide (q.1 = k)) p _ hfind
  have hmem : p ∈ normalizedToOrig cols := List.mem_reverse.mp (List.mem_of_find?_eq_some hfind)
  obtain ⟨a, ha, hpa⟩ := List.mem_map.mp hmem
  have hk : p.1 = k := of_decide_eq_true hp
  subst hsnd
  rw [← hpa] at hk ⊢
  exact ⟨ha, hk⟩

theorem dictLookup_mem (cols : List PyStr) (k : PyStr) (c : PyStr)
    (hc : c ∈ cols) (hk : normLabel c = k) :
    ∃ c', dictLookup (normalizedToOrig cols) k = some c' := by
  have hmem : (normLabel c, c) ∈ (normalizedToOrig cols).reverse :=
    List.mem_reverse.mpr (List.mem_map.mpr ⟨c, hc, rfl⟩)
  have hsome : ((normalizedToOrig cols).reverse.find? (fun p => p.1 = k)).isSome := by
    exact List.find?_isSome.mpr ⟨(normLabel c, c), hmem, by simp [hk]⟩
  obtain ⟨p, hp⟩ := Option.isSome_iff_exists.mp hsome
  exact ⟨p.2, by unfold dictLookup; rw [hp]; rfl⟩

/-- The reference names are already stripped and lowercased. -/
theorem refs_normLabel_fixed : REFERENCE_COLUMNS.map normLabel = REFERENCE_COLUMNS := by decide

theorem refs_nodup : REFERENCE_COLUMNS.Nodup := by decide

theorem filterMap_norm_sublist (l : List PyStr) (f : PyStr → Option PyStr)
    (hf : ∀ r c, f r = some c → normLabel c = normLabel r) :
    ((l.filterMap f).map normLabel).Sublist (l.map normLabel) := by
  induction l with
  | nil => simp
  | cons r t ih =>
    rw [List.filterMap_cons, List.map_cons]
    cases hfr : f r with
    | none => exact (ih).cons _
    | some c =>
      rw [List.map_cons, hf r c hfr]
      exact ih.cons₂ _

theorem matched_norm_sublist (cols : List PyStr) :
    ((matchedColumns cols).map normLabel).Sublist REFERENCE_COLUMNS := by
  have h := filterMap_norm_sublist REFERENCE_COLUMNS
    (fun r => dictLookup (normalizedToOrig cols) (normLabel r))
    (fun r c hc => (dictLookup_sound hc).2)
  rw [refs_normLabel_fixed] at h
  exact h

theorem matched_mem {cols : List PyStr} {c : PyStr} (h : c ∈ matchedColumns cols) : c ∈ cols := by
  obtain ⟨r, _, hr⟩ := List.mem_filterMap.mp h
  exact (dictLookup_sound hr).1

theorem matched_nodup (cols : List PyStr) : (matchedColumns cols).Nodup :=
  List.Nodup.of_map normLabel ((matched_norm_sublist cols).nodup refs_nodup)

theorem matched_exists (cols : List PyStr) (r c : PyStr)
    (hr : r ∈ REFERENCE_COLUMNS) (hc : c ∈ cols) (h : normLabel c = normLabel r) :
    ∃ c' ∈ matchedColumns cols, normLabel c' = normLabel r := by
  obtain ⟨c', hl⟩ := dictLookup_mem cols (normLabel r) c hc h
  exact ⟨c', List.mem_filterMap.mpr ⟨r, hr, hl⟩, (dictLookup_sound hl).2⟩

theorem matched_ne_nil (cols : List PyStr) (r c : PyStr)
    (hr : r ∈ REFERENCE_COLUMNS) (hc : c ∈ cols) (h : normLabel c = normLabel r) :
    matchedColumns cols ≠ [] := by
  obtain ⟨c', hc', _⟩ := matched_exists cols r c hr hc h
  intro hnil
  rw [hnil] at hc'
  exact absurd hc' (List.not_mem_nil c')

theorem selectColumns_of_matched {cols : List PyStr} (h : matchedColumns cols ≠ []) :
    selectColumns cols = .ok (matchedColumns cols) := by
  unfold selectColumns
  rw [if_neg]
  simp [List.isEmpty_iff, h]

theorem processColumns_of_select {t : Table} {m : List PyStr}
    (h : selectColumns t.columns = .ok m) :
    processColumns t = .ok (renameColumns m) := by
  unfold processColumns process_scc_export
  rw [h]
  rfl

theorem selectColumns_nodup {cols : List PyStr} {m : List PyStr}
    (h : selectColumns cols = .ok m) : m.Nodup := by
  unfold selectColumns at h
  by_cases hm : (matchedColumns cols).isEmpty
  · rw [if_pos hm] at h
    cases hfind : cols.find? hasProjectNameIndicators with
    | none => rw [hfind] at h; cases h
    | some c =>
      rw [hfind] at h
      cases h
      exact List.nodup_singleton c
  · rw [if_neg hm] at h
    cases h
    exact matched_nodup cols

theorem rename_mem {m : List PyStr} {c : PyStr} (h : c ∈ renameColumns m) :
    c ∈ m ∨ c = codes "Project Name" := by
  unfold renameColumns at h
  by_cases hh : m.head? = some projectDisplayNameCol
  · rw [if_pos hh] at h
    obtain ⟨x, hx, hxc⟩ := List.mem_map.mp h
    by_cases hxl : x = projectDisplayNameCol
    · right; rw [← hxc, if_pos hxl]
    · left; rw [← hxc, if_neg hxl]; exact hx
  · rw [if_neg hh] at h
    exact Or.inl h

theorem rename_of_head {m : List PyStr} (hm : m.Nodup)
    (h : m.head? = some projectDisplayNameCol) :
    renameColumns m = codes "Project Name" :: m.tail := by
  cases m with
  | nil => cases h
  | cons c t =>
    have hc : c = projectDisplayNameCol := by
      simpa using h
    unfold renameColumns
    rw [if_pos h, List.map_cons, if_pos hc]
    have hnot : projectDisplayNameCol ∉ t := by
      rw [← hc]; exact (List.nodup_cons.mp hm).1
    have ht : t.map (fun x => if x = projectDisplayNameCol then codes "Project Name" else x) = t := by
      rw [List.map_congr_left (g := id), List.map_id]
      intro x hx
      rw [if_neg]
      · rfl
      · intro hxl; rw [hxl] at hx; exact hnot hx
    rw [ht]
    rfl

theorem rename_of_head_ne {m : List PyStr} (h : ¬ m.head? = some projectDisplayNameCol) :
    renameColumns m = m := by
  unfold renameColumns
  rw [if_neg h]

/-! ## Claim theorems: the matcher -/

/-- C1 (counterexample): an input whose only column is the whitespace/casing
variant `" Finding.Severity "` is matched and projected with its original
label, which is not an element of the Reference Column List — so the Cleaned
Table's column set is not a subset of the Reference Column List. -/
theorem c1_counterexample :
    processColumns ⟨[codes " Finding.Severity "], []⟩ = .ok [codes " Finding.Severity "]
    ∧ codes " Finding.Severity " ∉ REFERENCE_COLUMNS := by
  constructor
  · rfl
  · decide

/-- C1 (amended): when at least one reference column matches, the Cleaned
Table's columns are original input labels whose stripped-lowercased forms are
an order-preserving sublist of the Reference Column List; the output columns
are exactly the matched labels after the readability rename, so every output
column is an input column or the literal `"Project Name"`. -/
theorem c1_cleaned_columns (t : Table) (h : matchedColumns t.columns ≠ []) :
    ((matchedColumns t.columns).map normLabel).Sublist REFERENCE_COLUMNS
    ∧ (∀ c ∈ matchedColumns t.columns, c ∈ t.columns)
    ∧ processColumns t = .ok (renameColumns (matchedColumns t.columns))
    ∧ (∀ c ∈ renameColumns (matchedColumns t.columns),
        c ∈ t.columns ∨ c = codes "Project Name") := by
  refine ⟨matched_norm_sublist _, fun c hc => matched_mem hc,
    processColumns_of_select (selectColumns_of_matched h), fun c hc => ?_⟩
  rcases rename_mem hc with h1 | h2
  · exact Or.inl (matched_mem h1)
  · exact Or.inr h2

/-- C1 witness: a one-column input matching `finding.severity`. -/
theorem c1_witness :
    matchedColumns [codes "finding.severity"] ≠ []
    ∧ (((matchedColumns [codes "finding.severity"]).map normLabel).Sublist REFERENCE_COLUMNS
      ∧ (∀ c ∈ matchedColumns [codes "finding.severity"], c ∈ [codes "finding.severity"])
      ∧ processColumns ⟨[codes "finding.severity"], []⟩
          = .ok (renameColumns (matchedColumns [codes "finding.severity"]))
      ∧ (∀ c ∈ renameColumns (matchedColumns [codes "finding.severity"]),
          c ∈ [codes "finding.severity"] ∨ c = codes "Project Name")) :=
  ⟨by decide, c1_cleaned_columns ⟨[codes "finding.severity"], []⟩ (by decide)⟩

/-- C4: every input label equal to a reference column after trimming and
lowercasing yields a recorded match (the reference column is not missing, and
a column with that normalized form is projected); a label matching no
reference column under that normalization never enters `matched_columns`. -/
theorem c4_match_roundtrip (cols : List PyStr) :
    (∀ r ∈ REFERENCE_COLUMNS, ∀ label ∈ cols, normLabel label = normLabel r →
       r ∉ missingColumns cols ∧ ∃ c ∈ matchedColumns cols, normLabel c = normLabel r)
    ∧ (∀ label ∈ cols, (∀ r ∈ REFERENCE_COLUMNS, normLabel label ≠ normLabel r) →
       label ∉ matchedColumns cols) := by
  constructor
  · intro r hr label hl hnl
    constructor
    · intro hmem
      obtain ⟨c', hl'⟩ := dictLookup_mem cols (normLabel r) label hl hnl
      have hpred := (List.mem_filter.mp hmem).2
      rw [hl'] at hpred
      simp at hpred
    · exact matched_exists cols r label hr hl hnl
  · intro label hl hne hmem
    obtain ⟨r, hr, hlook⟩ := List.mem_filterMap.mp hmem
    exact hne r hr (dictLookup_sound hlook).2

/-- C4 witness: `" Finding.Severity "` matches `finding.severity`. -/
theorem c4_witness :
    codes "finding.severity" ∉ missingColumns [codes " Finding.Severity "]
    ∧ ∃ c ∈ matchedColumns [codes " Finding.Severity "],
        normLabel c = normLabel (codes "finding.severity") :=
  (c4_match_roundtrip [codes " Finding.Severity "]).1 (codes "finding.severity") (by decide)
    (codes " Finding.Severity ") (by decide) (by decide)

/-- C3: when zero reference columns match, the pipeline selects the first
input column whose lowercased name contains `project`, `display` and `name`
and uses it alone; with no such column, `process_scc_export` fails with the
no-matching-columns `ValueError` and produces nothing. -/
theorem c3_zero_match_fallback (t : Table) (h : matchedColumns t.columns = []) :
    (∀ c, t.columns.find? hasProjectNameIndicators = some c →
       selectColumns t.columns = .ok [c] ∧ processColumns t = .ok [c])
    ∧ (t.columns.find? hasProjectNameIndicators = none →
       process_scc_export t = .error noMatchErrorMsg) := by
  constructor
  · intro c hc
    have hsel : selectColumns t.columns = .ok [c] := by
      unfold selectColumns
      rw [if_pos (by simp [h]), hc]
    refine ⟨hsel, ?_⟩
    have hrn : renameColumns [c] = [c] := by
      apply rename_of_head_ne
      intro heq
      have hcc : c = projectDisplayNameCol := by simpa using heq
      have hcm : c ∈ t.columns := List.mem_of_find?_eq_some hc
      rw [hcc] at hcm
      exact matched_ne_nil t.columns projectDisplayNameCol projectDisplayNameCol
        (by decide) hcm rfl h
    have hp := processColumns_of_select hsel
    rw [hrn] at hp
    exact hp
  · intro hnone
    have hsel : selectColumns t.columns = .error noMatchErrorMsg := by
      unfold selectColumns
      rw [if_pos (by simp [h]), hnone]
    unfold process_scc_export
    rw [hsel]

/-- C3 witness: a single junk column naming a project display name. -/
theorem c3_witness :
    matchedColumns [codes "GCP Project Display Name"] = []
    ∧ (selectColumns [codes "GCP Project Display Name"]
         = .ok [codes "GCP Project Display Name"]
      ∧ processColumns ⟨[codes "GCP Project Display Name"], []⟩
         = .ok [codes "GCP Project Display Name"]) :=
  ⟨by decide,
   (c3_zero_match_fallback ⟨[codes "GCP Project Display Name"], []⟩ (by decide)).1 _ (by decide)⟩

/-- C10: the output of `process_scc_export` renames the head of the selected
columns to `"Project Name"` exactly when that head is literally
`resource.gcp_metadata.project_display_name`; every other selected column —
including any casing or whitespace variant of that name — keeps its original
label. -/
theorem c10_project_name_rename (t : Table) (m : List PyStr)
    (h : selectColumns t.columns = .ok m) :
    (m.head? = some projectDisplayNameCol →
       processColumns t = .ok (codes "Project Name" :: m.tail))
    ∧ (¬ m.head? = some projectDisplayNameCol → processColumns t = .ok m) := by
  constructor
  · intro hh
    have hp := processColumns_of_select h
    rw [rename_of_head (selectColumns_nodup h) hh] at hp
    exact hp
  · intro hh
    have hp := processColumns_of_select h
    rw [rename_of_head_ne hh] at hp
    exact hp

/-- C10 witness: the literal column is renamed, its companion is kept. -/
theorem c10_witness :
    selectColumns [projectDisplayNameCol, codes "finding.severity"]
      = .ok [projectDisplayNameCol, codes "finding.severity"]
    ∧ processColumns ⟨[projectDisplayNameCol, codes "finding.severity"], []⟩
        = .ok [codes "Project Name", codes "finding.severity"] :=
  ⟨by decide,
   (c10_project_name_rename ⟨[projectDisplayNameCol, codes "finding.severity"], []⟩
     [projectDisplayNameCol, codes "finding.severity"] (by decide)).1 (by decide)⟩

/-! ## Claim theorems: validation -/

/-- C2 (counterexample): a 20-byte file parsing to a single column
`finding.severity` has fewer than 2 columns, yet `validate_file` accepts it —
the code never checks the column count. -/
theorem c2_counterexample :
    validate_file ⟨20, .ok ⟨[codes "finding.severity"], 1⟩⟩
      = (true, codes "Valid SCC export file.")
    ∧ [codes "finding.severity"].length < 2 := by
  constructor
  · rfl
  · decide

/-- C2 (amended): `validate_file` accepts exactly when the size is within
50MB and nonzero, the CSV sample parses, is nonempty (at least one row and
one column), and some column contains `finding.` or `resource.`; a 0-byte
file is rejected with "File is empty.", and a parsed but row-less sample with
"CSV file has no data.". No exception escapes: the result is always a
`(is_valid, message)` pair. -/
theorem c2_validate (f : UploadedFile) :
    ((validate_file f).1 = true ↔
       f.size ≤ 50 * 1024 * 1024 ∧ 0 < f.size
       ∧ ∃ df, f.parsed = .ok df ∧ 0 < df.sampleRows ∧ df.columns ≠ []
           ∧ df.columns.any hasSccIndicator = true)
    ∧ (f.size = 0 → validate_file f = (false, codes "File is empty."))
    ∧ (∀ df, f.parsed = .ok df → 0 < f.size → f.size ≤ 50 * 1024 * 1024 →
        df.sampleRows = 0 → validate_file f = (false, codes "CSV file has no data.")) := by
  obtain ⟨sz, parsed⟩ := f
  refine ⟨?_, ?_, ?_⟩
  · cases parsed with
    | error e =>
      simp only [validate_file]
      constructor
      · intro hv
        split_ifs at hv
      · rintro ⟨-, -, df, hdf, -⟩
        cases hdf
    | ok df =>
      simp only [validate_file]
      constructor
      · intro hv
        split_ifs at hv with h1 h2 h3 h4
        push_neg at h3
        exact ⟨by omega, by omega, df, rfl, by omega, h3.2, h4⟩
      · rintro ⟨hle, hpos, df', hdf', hrows, hcols, hany⟩
        cases hdf'
        rw [if_neg (by omega), if_neg (by omega), if_neg (by push_neg; exact ⟨by omega, hcols⟩),
          if_pos hany]
  · intro h0
    have h0' : sz = 0 := h0
    subst h0'
    simp [validate_file]
  · intro df hdf hpos hle h0
    have hdf' : parsed = .ok df := hdf
    have hpos' : 0 < sz := hpos
    have hle' : sz ≤ 50 * 1024 * 1024 := hle
    subst hdf'
    simp only [validate_file]
    rw [if_neg (by omega), if_neg (by omega), if_pos (Or.inl h0)]

/-- C2 witness: the 0-byte file. -/
theorem c2_witness :
    validate_file ⟨0, Except.error []⟩ = (false, codes "File is empty.") :=
  (c2_validate ⟨0, Except.error []⟩).2.1 rfl

/-! ## Claim theorems: `add_client` -/

/-- C6 (counterexample): with `"p1"` stored, adding project ID `" p1 "` —
which is not itself in the table — still fails, because `add_client` strips
the ID before the uniqueness check. -/
theorem c6_counterexample :
    codes " p1 " ∉
      (ClientsDb.mk [⟨1, codes "Acme", codes "p1"⟩] 2).rows.map (fun r => r.gcp_project_id)
    ∧ (add_client ⟨[⟨1, codes "Acme", codes "p1"⟩], 2⟩ (codes "Beta") (codes " p1 ")).2.1 = false
    ∧ (add_client ⟨[⟨1, codes "Acme", codes "p1"⟩], 2⟩ (codes "Beta") (codes " p1 ")).1
        = ⟨[⟨1, codes "Acme", codes "p1"⟩], 2⟩ := by
  refine ⟨by decide, by decide, by decide⟩

/-- C6 (amended): if the trimmed project ID is already a stored
`gcp_project_id`, `add_client` reports failure with a user-facing message and
leaves the table untouched; otherwise it appends exactly the one new
(trimmed) row and reports success. -/
theorem c6_add_client (db : ClientsDb) (name project_id : PyStr) :
    (pyStrip project_id ∈ db.rows.map (fun r => r.gcp_project_id) →
       add_client db name project_id
         = (db, false, codes "Project ID '" ++ project_id ++ codes "' already exists."))
    ∧ (pyStrip project_id ∉ db.rows.map (fun r => r.gcp_project_id) →
       add_client db name project_id
         = (⟨db.rows ++ [⟨db.nextId, pyStrip name, pyStrip project_id⟩], db.nextId + 1⟩,
            true, codes "Client '" ++ name ++ codes "' added!")) := by
  constructor
  · intro hmem
    simp only [add_client]
    rw [if_pos]
    obtain ⟨r, hr, hrp⟩ := List.mem_map.mp hmem
    exact List.any_eq_true.mpr ⟨r, hr, by simp [hrp]⟩
  · intro hmem
    simp only [add_client]
    rw [if_neg]
    intro hany
    obtain ⟨r, hr, hrp⟩ := List.any_eq_true.mp hany
    exact hmem (List.mem_map.mpr ⟨r, hr, of_decide_eq_true hrp⟩)

/-- C6 witness: inserting into an empty table succeeds. -/
theorem c6_witness :
    pyStrip (codes "p1") ∉
      (ClientsDb.mk [] 1).rows.map (fun r => r.gcp_project_id)
    ∧ add_client ⟨[], 1⟩ (codes "Acme") (codes "p1")
        = (⟨[⟨1, codes "Acme", codes "p1"⟩], 2⟩, true,
           codes "Client '" ++ codes "Acme" ++ codes "' added!") :=
  ⟨by decide, (c6_add_client ⟨[], 1⟩ (codes "Acme") (codes "p1")).2 (by decide)⟩

/-! ## Claim theorems: the webhook receiver -/

/-- C7: a non-JSON body answers 400 and stores nothing; a JSON body with a
wrong (or absent) secret answers 401 and stores nothing; a correct secret
answers 200 with `status`, `message` and the new row's id, and appends
exactly one row. -/
theorem c7_receive_webhook (cfg : PyStr) (db : WebhookDb) (req : WebhookRequest) :
    (req.isJson = false →
       receive_webhook cfg db req
         = (⟨400, none, none, none, some (codes "Content-Type must be application/json")⟩, db))
    ∧ (req.isJson = true → req.secret ≠ some cfg →
       receive_webhook cfg db req
         = (⟨401, none, none, none, some (codes "Invalid secret")⟩, db))
    ∧ (req.isJson = true → req.secret = some cfg →
       (receive_webhook cfg db req).1.httpStatus = 200
       ∧ (receive_webhook cfg db req).1.body_status = some (codes "success")
       ∧ (receive_webhook cfg db req).1.body_message = some (codes "Webhook received")
       ∧ (receive_webhook cfg db req).1.body_id = some db.nextId
       ∧ ∃ row, (receive_webhook cfg db req).2.messages = db.messages ++ [row]) := by
  refine ⟨?_, ?_, ?_⟩
  · intro h
    simp only [receive_webhook]
    rw [if_pos h]
  · intro h1 h2
    simp only [receive_webhook]
    rw [if_neg (by simp [h1]), if_pos h2]
  · intro h1 h2
    simp only [receive_webhook]
    rw [if_neg (by simp [h1]), if_neg (by simp [h2])]
    exact ⟨rfl, rfl, rfl, rfl, _, rfl⟩

/-- C7 witness: a wrong secret against the default configuration. -/
theorem c7_witness :
    receive_webhook (codes "prism-webhook-2026") ⟨[], 1⟩
        ⟨true, some (codes "wrong"), none, none, none, none, none, none⟩
      = (⟨401, none, none, none, some (codes "Invalid secret")⟩, ⟨[], 1⟩) :=
  (c7_receive_webhook (codes "prism-webhook-2026") ⟨[], 1⟩
    ⟨true, some (codes "wrong"), none, none, none, none, none, none⟩).2.1 rfl (by decide)

/-- C9: every row the webhook receiver stores has a severity among
info/warning/error/critical and a message type among
text/table/list/code/json; a missing or unrecognised severity is stored as
`info`, a missing or unrecognised type as `text`. -/
theorem c9_severity_type_defaults (cfg : PyStr) (db : WebhookDb) (req : WebhookRequest)
    (h1 : req.isJson = true) (h2 : req.secret = some cfg) :
    ∃ row, (receive_webhook cfg db req).2.messages = db.messages ++ [row]
      ∧ row.severity ∈ severityLevels
      ∧ row.message_type ∈ messageTypes
      ∧ (req.severity = none → row.severity = codes "info")
      ∧ (∀ s, req.severity = some s → pyLower s ∉ severityLevels → row.severity = codes "info")
      ∧ (req.msgType = none → row.message_type = codes "text")
      ∧ (∀ s, req.msgType = some s → pyLower s ∉ messageTypes →
          row.message_type = codes "text") := by
  have hrow : (receive_webhook cfg db req).2.messages = db.messages ++
      [⟨db.nextId, req.source.getD (codes "Unknown"),
        if pyLower (req.severity.getD (codes "info")) ∈ severityLevels
          then pyLower (req.severity.getD (codes "info")) else codes "info",
        if pyLower (req.msgType.getD (codes "text")) ∈ messageTypes
          then pyLower (req.msgType.getD (codes "text")) else codes "text",
        req.title.getD [], req.content.getD [], req.dataField.getD (codes "{}")⟩] := by
    simp only [receive_webhook]
    rw [if_neg (by simp [h1]), if_neg (by simp [h2])]
  refine ⟨_, hrow, ?_, ?_, ?_, ?_, ?_, ?_⟩
  all_goals dsimp only
  · by_cases hs : pyLower (req.severity.getD (codes "info")) ∈ severityLevels
    · rw [if_pos hs]; exact hs
    · rw [if_neg hs]; decide
  · by_cases hs : pyLower (req.msgType.getD (codes "text")) ∈ messageTypes
    · rw [if_pos hs]; exact hs
    · rw [if_neg hs]; decide
  · intro h
    rw [h]
    simp only [Option.getD_none]
    rw [if_pos (by decide)]
    decide
  · intro s hs hnot
    rw [hs]
    simp only [Option.getD_some]
    rw [if_neg hnot]
  · intro h
    rw [h]
    simp only [Option.getD_none]
    rw [if_pos (by decide)]
    decide
  · intro s hs hnot
    rw [hs]
    simp only [Option.getD_some]
    rw [if_neg hnot]

/-- C9 witness: severity `URGENT` and type `fancy` are stored as
`info`/`text`. -/
theorem c9_witness :
    ∃ row, (receive_webhook (codes "s") ⟨[], 1⟩
        ⟨true, some (codes "s"), none, some (codes "URGENT"), some (codes "fancy"),
         none, none, none⟩).2.messages = ([] : List StoredMessage) ++ [row]
      ∧ row.severity ∈ severityLevels
      ∧ row.message_type ∈ messageTypes
      ∧ ((some (codes "URGENT") : Option PyStr) = none → row.severity = codes "info")
      ∧ (∀ s, (some (codes "URGENT") : Option PyStr) = some s →
          pyLower s ∉ severityLevels → row.severity = codes "info")
      ∧ ((some (codes "fancy") : Option PyStr) = none → row.message_type = codes "text")
      ∧ (∀ s, (some (codes "fancy") : Option PyStr) = some s →
          pyLower s ∉ messageTypes → row.message_type = codes "text") :=
  c9_severity_type_defaults (codes "s") ⟨[], 1⟩
    ⟨true, some (codes "s"), none, some (codes "URGENT"), some (codes "fancy"),
     none, none, none⟩ rfl rfl

/-! ## Claim theorems: `get_project_summary` -/

theorem filterMap_id_length_of_isSome (l : List (Option PyStr)) (h : ∀ v ∈ l, v.isSome = true) :
    (l.filterMap id).length = l.length := by
  induction l with
  | nil => rfl
  | cons a t ih =>
    obtain ⟨x, rfl⟩ := Option.isSome_iff_exists.mp (h a (List.mem_cons_self a t))
    rw [List.filterMap_cons_some]
    · simp only [List.length_cons]
      rw [ih (fun v hv => h v (List.mem_cons_of_mem _ hv))]
    · rfl

/-- Per-group counts sum to the number of non-missing values. -/
theorem sum_groupCounts (vals : List (Option PyStr)) :
    ((groupCounts vals).map (fun p => p.2)).sum = (vals.filterMap id).length := by
  unfold groupCounts
  rw [List.map_map]
  have hbridge : (fun v => (vals.filterMap id).count v)
      = (fun v => @List.count PyStr instBEqOfDecidableEq v (vals.filterMap id)) := by
    funext v
    unfold List.count
    apply List.countP_congr
    intro a _
    simp
  show ((List.insertionSort (fun a b => lexLe a b = true) (vals.filterMap id).dedup).map
      (fun v => (vals.filterMap id).count v)).sum = (vals.filterMap id).length
  rw [hbridge]
  have hperm := (List.perm_insertionSort (fun a b => lexLe a b = true)
    (vals.filterMap id).dedup).map
    (fun v => @List.count PyStr instBEqOfDecidableEq v (vals.filterMap id))
  rw [hperm.sum_eq]
  exact List.sum_map_count_dedup_eq_length _

/-- C5 (counterexample): one row whose project cell is missing — the summary
is empty, so its counts sum to 0, not to the row count 1 (pandas `groupby`
drops NaN keys). -/
theorem c5_counterexample :
    (Table.mk [projectDisplayNameCol] [[none]]).rows.length = 1
    ∧ ((get_project_summary ⟨[projectDisplayNameCol], [[none]]⟩).map (fun p => p.2)).sum = 0 := by
  constructor
  · rfl
  · rfl

/-- C5 (amended): when a project column is detected, the summary's per-group
counts sum to the number of rows with a non-missing value in that column — in
particular to the full row count whenever every row has one; when no project
column is detected the summary is empty. -/
theorem c5_summary_conservation (t : Table) :
    (∀ c, findProjectCol t.columns = some c →
       ((get_project_summary t).map (fun p => p.2)).sum
         = ((columnValues t c).filterMap id).length
       ∧ ((∀ v ∈ columnValues t c, v.isSome = true) →
           ((get_project_summary t).map (fun p => p.2)).sum = t.rows.length))
    ∧ (findProjectCol t.columns = none → get_project_summary t = []) := by
  constructor
  · intro c hc
    have hmain : ((get_project_summary t).map (fun p => p.2)).sum
        = ((columnValues t c).filterMap id).length := by
      unfold get_project_summary
      rw [hc]
      have hperm := (List.perm_insertionSort (fun a b : PyStr × Nat => b.2 ≤ a.2)
        (groupCounts (columnValues t c))).map (fun p : PyStr × Nat => p.2)
      rw [hperm.sum_eq]
      exact sum_groupCounts _
    refine ⟨hmain, fun hall => ?_⟩
    rw [hmain, filterMap_id_length_of_isSome _ hall]
    unfold columnValues
    rw [List.length_map]
  · intro hc
    unfold get_project_summary
    rw [hc]

/-- C5 witness: three rows, all with a project value, sum to 3. -/
theorem c5_witness :
    findProjectCol [projectDisplayNameCol] = some projectDisplayNameCol
    ∧ ((get_project_summary ⟨[projectDisplayNameCol],
        [[some (codes "p1")], [some (codes "p1")], [some (codes "p2")]]⟩).map
          (fun p => p.2)).sum = 3 :=
  ⟨by decide,
   ((c5_summary_conservation ⟨[projectDisplayNameCol],
      [[some (codes "p1")], [some (codes "p1")], [some (codes "p2")]]⟩).1
      projectDisplayNameCol (by decide)).2 (by decide)⟩

/-! ## Lemmas for the Column Normalizer -/

theorem step_good (n : Nat) : goodCode (if isAlnumCode n then lowerCode n else 95) = true := by
  by_cases h : isAlnumCode n = true
  · rw [if_pos h]
    unfold isAlnumCode at h
    unfold goodCode lowerCode
    simp only [Bool.or_eq_true, Bool.and_eq_true, decide_eq_true_eq] at h ⊢
    split_ifs <;> omega
  · rw [if_neg h]
    decide

theorem goodCode_not_ws {n : Nat} (h : goodCode n = true) : isWs n = false := by
  unfold goodCode at h
  unfold isWs
  simp only [Bool.or_eq_true, Bool.and_eq_true, decide_eq_true_eq] at h
  simp only [Bool.or_eq_false_iff, decide_eq_false_iff_not]
  omega

theorem step_id {n : Nat} (h : goodCode n = true) :
    (if isAlnumCode n then lowerCode n else 95) = n := by
  unfold goodCode at h
  simp only [Bool.or_eq_true, Bool.and_eq_true, decide_eq_true_eq] at h
  by_cases ha : isAlnumCode n = true
  · rw [if_pos ha]
    unfold isAlnumCode at ha
    simp only [Bool.or_eq_true, Bool.and_eq_true, decide_eq_true_eq] at ha
    unfold lowerCode
    rw [if_neg (by omega)]
  · rw [if_neg ha]
    unfold isAlnumCode at ha
    simp only [Bool.or_eq_true, Bool.and_eq_true, decide_eq_true_eq] at ha
    omega

theorem mem_collapseUnderscores : ∀ (l : PyStr), ∀ x ∈ collapseUnderscores l, x ∈ l := by
  intro l
  induction l with
  | nil => intro x hx; cases hx
  | cons c t ih =>
    cases t with
    | nil => intro x hx; exact hx
    | cons d t' =>
      intro x hx
      unfold collapseUnderscores at hx
      split_ifs at hx with h
      · exact List.mem_cons_of_mem _ (ih x hx)
      · rcases List.mem_cons.mp hx with rfl | hx'
        · exact List.mem_cons_self _ _
        · exact List.mem_cons_of_mem _ (ih x hx')

theorem mem_dropTrailing (p : Nat → Bool) : ∀ (l : PyStr), ∀ x ∈ dropTrailing p l, x ∈ l := by
  intro l
  induction l with
  | nil => intro x hx; cases hx
  | cons c t ih =>
    intro x hx
    unfold dropTrailing at hx
    split at hx
    · split_ifs at hx
      · cases hx
      · rw [List.mem_singleton] at hx
        subst hx
        exact List.mem_cons_self _ _
    · rename_i d t' hrec
      rcases List.mem_cons.mp hx with rfl | hx'
      · exact List.mem_cons_self _ _
      · have hmem : x ∈ dropTrailing p t := by rw [hrec]; exact hx'
        exact List.mem_cons_of_mem _ (ih x hmem)

theorem head?_dropWhile_false (p : Nat → Bool) :
    ∀ (l : PyStr) (c : Nat), (l.dropWhile p).head? = some c → p c = false := by
  intro l
  induction l with
  | nil => intro c hc; cases hc
  | cons a t ih =>
    intro c hc
    rw [List.dropWhile_cons] at hc
    split_ifs at hc with h
    · exact ih c hc
    · have : a = c := by simpa using hc
      subst this
      simpa using h

theorem getLast?_dropTrailing_false (p : Nat → Bool) :
    ∀ (l : PyStr) (c : Nat), (dropTrailing p l).getLast? = some c → p c = false := by
  intro l
  induction l with
  | nil => intro c hc; cases hc
  | cons a t ih =>
    intro c hc
    unfold dropTrailing at hc
    split at hc
    · split_ifs at hc with h
      · cases hc
      · have : a = c := by simpa using hc
        subst this
        simpa using h
    · rename_i d t' hrec
      rw [List.getLast?_cons_cons] at hc
      apply ih
      rw [hrec]
      exact hc

theorem head?_dropTrailing (p : Nat → Bool) (c : Nat) (t : PyStr) :
    dropTrailing p (c :: t) = [] ∨ (dropTrailing p (c :: t)).head? = some c := by
  unfold dropTrailing
  split
  · split_ifs
    · exact Or.inl rfl
    · exact Or.inr rfl
  · exact Or.inr rfl

theorem dropTrailing_eq_self_of_getLast (p : Nat → Bool) :
    ∀ (l : PyStr), (∀ c, l.getLast? = some c → p c = false) → dropTrailing p l = l := by
  intro l
  induction l with
  | nil => intro _; rfl
  | cons a t ih =>
    intro h
    cases t with
    | nil =>
      have ha : p a = false := h a rfl
      simp [dropTrailing, ha]
    | cons d t' =>
      have ht : dropTrailing p (d :: t') = d :: t' :=
        ih (fun c hc => h c (by rw [List.getLast?_cons_cons]; exact hc))
      unfold dropTrailing
      rw [ht]

theorem dropWhile_eq_self_of_head (p : Nat → Bool) (l : PyStr)
    (h : ∀ c, l.head? = some c → p c = false) : l.dropWhile p = l := by
  cases l with
  | nil => rfl
  | cons a t =>
    have ha : p a = false := h a rfl
    rw [List.dropWhile_cons, if_neg (by simp [ha])]

theorem collapse_head : ∀ (t : PyStr) (d : Nat),
    (collapseUnderscores (d :: t)).head? = some d := by
  intro t
  induction t with
  | nil => intro d; rfl
  | cons e t' ih =>
    intro d
    unfold collapseUnderscores
    split_ifs with h
    · rw [ih e, h.1, h.2]
    · rfl

theorem collapse_chain : ∀ (l : PyStr), List.Chain' underscoreApart (collapseUnderscores l) := by
  intro l
  induction l with
  | nil => exact List.chain'_nil
  | cons c t ih =>
    cases t with
    | nil => exact List.chain'_singleton c
    | cons d t' =>
      unfold collapseUnderscores
      split_ifs with h
      · exact ih
      · rw [List.chain'_cons']
        refine ⟨?_, ih⟩
        intro y hy
        rw [collapse_head t' d] at hy
        have hyd : d = y := by simpa using hy
        subst hyd
        exact h

theorem collapse_eq_self : ∀ (l : PyStr),
    List.Chain' underscoreApart l → collapseUnderscores l = l := by
  intro l
  induction l with
  | nil => intro _; rfl
  | cons c t ih =>
    intro h
    cases t with
    | nil => rfl
    | cons d t' =>
      have h1 : underscoreApart c d := (List.chain'_cons'.mp h).1 d rfl
      have h2 : List.Chain' underscoreApart (d :: t') := (List.chain'_cons'.mp h).2
      unfold collapseUnderscores
      rw [if_neg h1, ih h2]

theorem chain'_dropWhile (p : Nat → Bool) :
    ∀ (l : PyStr), List.Chain' underscoreApart l →
      List.Chain' underscoreApart (l.dropWhile p) := by
  intro l
  induction l with
  | nil => intro h; exact h
  | cons a t ih =>
    intro h
    rw [List.dropWhile_cons]
    split_ifs
    · exact ih (List.chain'_cons'.mp h).2
    · exact h

theorem chain'_dropTrailing (p : Nat → Bool) :
    ∀ (l : PyStr), List.Chain' underscoreApart l →
      List.Chain' underscoreApart (dropTrailing p l) := by
  intro l
  induction l with
  | nil => intro h; exact h
  | cons a t ih =>
    intro h
    unfold dropTrailing
    split
    · split_ifs
      · exact List.chain'_nil
      · exact List.chain'_singleton _
    · rename_i d t' hrec
      rw [List.chain'_cons']
      have ht : List.Chain' underscoreApart (dropTrailing p t) :=
        ih (List.chain'_cons'.mp h).2
      rw [hrec] at ht
      refine ⟨?_, ht⟩
      intro y hy
      have hyd : d = y := by simpa using hy
      subst hyd
      cases t with
      | nil => cases hrec
      | cons e t₂ =>
        rcases head?_dropTrailing p e t₂ with hnil | hhead
        · rw [hnil] at hrec; cases hrec
        · rw [hrec] at hhead
          have hde : d = e := by simpa using hhead
          subst hde
          exact (List.chain'_cons'.mp h).1 d rfl

theorem stripGen_head (p : Nat → Bool) (m : PyStr) (c : Nat)
    (h : (dropTrailing p (m.dropWhile p)).head? = some c) : p c = false := by
  cases hdw : m.dropWhile p with
  | nil => rw [hdw] at h; cases h
  | cons a t =>
    rw [hdw] at h
    rcases head?_dropTrailing p a t with hnil | hhead
    · rw [hnil] at h; cases h
    · rw [hhead] at h
      have : a = c := by simpa using h
      subst this
      exact head?_dropWhile_false p m a (by rw [hdw]; rfl)

theorem stripGen_idem (p : Nat → Bool) (m : PyStr) :
    dropTrailing p ((dropTrailing p (m.dropWhile p)).dropWhile p)
      = dropTrailing p (m.dropWhile p) := by
  rw [dropWhile_eq_self_of_head p _ (fun c hc => stripGen_head p m c hc)]
  exact dropTrailing_eq_self_of_getLast p _ (fun c hc => getLast?_dropTrailing_false p _ c hc)

theorem getLast?_mem_self {l : PyStr} {a : Nat} (h : l.getLast? = some a) : a ∈ l := by
  obtain ⟨hne, hx⟩ := List.mem_getLast?_eq_getLast (show a ∈ l.getLast? from h)
  rw [hx]
  exact List.getLast_mem hne

theorem pyStrip_eq_self {l : PyStr} (h : ∀ x ∈ l, isWs x = false) : pyStrip l = l := by
  unfold pyStrip
  have hh : ∀ c, l.head? = some c → isWs c = false := by
    intro c hc
    cases l with
    | nil => cases hc
    | cons a t =>
      have : a = c := by simpa using hc
      subst this
      exact h a (List.mem_cons_self a t)
  rw [dropWhile_eq_self_of_head _ _ hh]
  exact dropTrailing_eq_self_of_getLast _ _ (fun c hc => h c (getLast?_mem_self hc))

theorem stripUnderscores_eq_self {l : PyStr}
    (hhead : ∀ c, l.head? = some c → isUnderscore c = false)
    (hlast : ∀ c, l.getLast? = some c → isUnderscore c = false) :
    stripUnderscores l = l := by
  unfold stripUnderscores
  rw [dropWhile_eq_self_of_head _ _ hhead]
  exact dropTrailing_eq_self_of_getLast _ _ hlast

theorem map_step_id {l : PyStr} (h : ∀ x ∈ l, goodCode x = true) :
    l.map (fun n => if isAlnumCode n then lowerCode n else 95) = l := by
  have hm := @List.map_congr_left Nat l Nat
    (fun n => if isAlnumCode n then lowerCode n else 95) id
    (fun a ha => step_id (h a ha))
  rw [hm, List.map_id]

theorem normalizeColumn_good (s : PyStr) :
    ∀ x ∈ normalizeColumn s, goodCode x = true := by
  intro x hx
  unfold normalizeColumn stripUnderscores at hx
  have h1 : x ∈ collapseUnderscores
      ((pyStrip s).map fun n => if isAlnumCode n then lowerCode n else 95) :=
    List.Sublist.mem (mem_dropTrailing _ _ x hx) (List.dropWhile_sublist _)
  obtain ⟨y, hy, hyx⟩ := List.mem_map.mp (mem_collapseUnderscores _ x h1)
  rw [← hyx]
  exact step_good y

theorem normalizeColumn_chain (s : PyStr) :
    List.Chain' underscoreApart (normalizeColumn s) := by
  unfold normalizeColumn stripUnderscores
  exact chain'_dropTrailing _ _ (chain'_dropWhile _ _ (collapse_chain _))

theorem normalizeColumn_head (s : PyStr) :
    ∀ c, (normalizeColumn s).head? = some c → isUnderscore c = false := by
  intro c hc
  unfold normalizeColumn stripUnderscores at hc
  exact stripGen_head isUnderscore _ c hc

theorem normalizeColumn_last (s : PyStr) :
    ∀ c, (normalizeColumn s).getLast? = some c → isUnderscore c = false := by
  intro c hc
  unfold normalizeColumn stripUnderscores at hc
  exact getLast?_dropTrailing_false isUnderscore _ c hc

/-- A string already in normal form is a fixed point of the normaliser. -/
theorem normalizeColumn_fixed {l : PyStr}
    (hgood : ∀ x ∈ l, goodCode x = true)
    (hchain : List.Chain' underscoreApart l)
    (hhead : ∀ c, l.head? = some c → isUnderscore c = false)
    (hlast : ∀ c, l.getLast? = some c → isUnderscore c = false) :
    normalizeColumn l = l := by
  unfold normalizeColumn
  rw [pyStrip_eq_self (fun x hx => goodCode_not_ws (hgood x hx))]
  rw [map_step_id hgood]
  rw [collapse_eq_self l hchain]
  exact stripUnderscores_eq_self hhead hlast

theorem isWs_lowerCode (n : Nat) : isWs (lowerCode n) = isWs n := by
  unfold lowerCode
  split_ifs with h
  · have h1 : isWs (n + 32) = false := by
      unfold isWs
      simp only [Bool.or_eq_false_iff, decide_eq_false_iff_not]
      omega
    have h2 : isWs n = false := by
      unfold isWs
      simp only [Bool.or_eq_false_iff, decide_eq_false_iff_not]
      omega
    rw [h1, h2]
  · rfl

theorem lowerCode_idem (n : Nat) : lowerCode (lowerCode n) = lowerCode n := by
  unfold lowerCode
  split_ifs <;> omega

theorem dropTrailing_map (p : Nat → Bool) (f : Nat → Nat) :
    ∀ (l : PyStr), dropTrailing p (l.map f) = (dropTrailing (fun n => p (f n)) l).map f := by
  intro l
  induction l with
  | nil => rfl
  | cons c t ih =>
    rw [List.map_cons]
    unfold dropTrailing
    rw [ih]
    cases hrec : dropTrailing (fun n => p (f n)) t with
    | nil =>
      dsimp only
      split_ifs <;> rfl
    | cons d t' => rfl

theorem pyStrip_pyLower (s : PyStr) : pyStrip (pyLower s) = pyLower (pyStrip s) := by
  unfold pyStrip pyLower
  rw [List.dropWhile_map, dropTrailing_map]
  have hfun : (fun n => isWs (lowerCode n)) = isWs := funext isWs_lowerCode
  have hfun2 : (isWs ∘ lowerCode) = isWs := funext isWs_lowerCode
  rw [hfun, hfun2]

theorem pyLower_idem (s : PyStr) : pyLower (pyLower s) = pyLower s := by
  unfold pyLower
  rw [List.map_map]
  exact List.map_congr_left (fun a _ => lowerCode_idem a)

theorem pyStrip_idem (s : PyStr) : pyStrip (pyStrip s) = pyStrip s :=
  stripGen_idem isWs s

/-! ## Claim theorem: normaliser idempotence -/

/-- C8: both canonicalisations applied to column labels are idempotent — the
spec §4.1 Column Normalizer (trim, non-alphanumeric runs to `_`, lowercase,
collapse `_` runs, strip outer `_`), and the `strip().lower()` form the
matcher actually applies in `process_scc_export`. -/
theorem c8_normalize_idempotent (x : PyStr) :
    normalizeColumn (normalizeColumn x) = normalizeColumn x
    ∧ normLabel (normLabel x) = normLabel x := by
  constructor
  · exact normalizeColumn_fixed (normalizeColumn_good x) (normalizeColumn_chain x)
      (normalizeColumn_head x) (normalizeColumn_last x)
  · unfold normLabel
    rw [pyStrip_pyLower, pyLower_idem, pyStrip_idem]

example : normLabel (codes " Finding.Severity ") = codes "finding.severity" := by decide

example : normalizeColumn (codes "  Finding -- Severity! ") = codes "finding_severity" := by
  decide

example : validate_file ⟨20, .ok ⟨[codes "finding.severity"], 1⟩⟩
    = (true, codes "Valid SCC export file.") := by decide

example : get_project_summary ⟨[projectDisplayNameCol],
    [[some (codes "p1")], [some (codes "p2")], [some (codes "p1")]]⟩
    = [(codes "p1", 2), (codes "p2", 1)] := by decide

example : matchedColumns [codes " Finding.Severity ", codes "Random Junk"]
    = [codes " Finding.Severity "] := by decide

example : selectColumns [codes "My Project Display Name"]
    = .ok [codes "My Project Display Name"] := by decide
